import Mathlib

/-!
# Verification of the go-challenge microblogging core

Shallow embedding of the domain entities (`domain/entity`), the DynamoDB
tweet repository (`infrastructure/repository/dynamodb/tweet_repository.go`),
the in-memory tweet repository (`infrastructure/repository/memory`),
the Redis timeline cache (`infrastructure/cache/timeline_cache.go`) and the
use cases (`application/usecase`), together with proofs of the testable
properties stated in the design document.

Timestamps (`time.Time`) are modelled as integers ordered by `≤`;
`t1.After(t2)` is `t2 < t1`.  Go byte strings are Lean `String`s; `len(s)`
in Go is the UTF-8 byte size.  Fallible Go calls return `Except GoError`,
and outcomes of external I/O (DynamoDB queries, Redis commands) appear as
explicit parameters so that every interleaving of success and failure the
code can observe is a concrete instantiation.
-/

/-- Domain errors from `domain/entity/errors.go`, plus the wrapped errors the
infrastructure layer creates with `fmt.Errorf(..., %w)` and a constructor for
transport-level store failures. -/
inductive GoError where
  | cannotFollowSelf
  | tweetTooLong
  | userNotFound
  | tweetNotFound
  | storeError (msg : String)
  | wrapped (context : String) (inner : GoError)
  deriving DecidableEq, Repr

/-- Go struct `entity.Tweet`: ID, author ID, content and creation timestamp. -/
structure Tweet where
  id : String
  userId : String
  content : String
  createdAt : Int
  deriving DecidableEq, Repr

/-- Constant `entity.MaxTweetLength = 280`. -/
def MaxTweetLength : Nat := 280

/-- Constructor `entity.NewTweet`: rejects content longer than `MaxTweetLength` bytes
(Go `len(content)` counts bytes), otherwise builds the tweet with
`CreatedAt = time.Now()` (the current instant is passed explicitly). -/
def NewTweet (id userID content : String) (now : Int) : Except GoError Tweet :=
  if content.utf8ByteSize > MaxTweetLength then
    Except.error GoError.tweetTooLong
  else
    Except.ok { id := id, userId := userID, content := content, createdAt := now }

/-- Go struct `entity.User`: ID, username and the `Following` set.  The Go field is a
`map[string]bool`; it is modelled as a duplicate-free list of keys. -/
structure User where
  id : String
  username : String
  following : List String
  deriving DecidableEq, Repr

/-- Constructor `entity.NewUser`: fresh user with an empty `Following` map. -/
def NewUser (id username : String) : User :=
  { id := id, username := username, following := [] }

/-- Insertion of a key into a Go map modelled as a list of keys:
`m[k] = true` adds the key only if it is not already present. -/
def insertKey (k : String) (l : List String) : List String :=
  if k ∈ l then l else l ++ [k]

/-- Method `User.Follow`: a user cannot follow themselves (`ErrCannotFollowSelf`);
otherwise the target ID is added to the `Following` map. -/
def User.Follow (u : User) (userID : String) : Except GoError User :=
  if u.id == userID then
    Except.error GoError.cannotFollowSelf
  else
    Except.ok { u with following := insertKey userID u.following }

/-- Method `User.Unfollow`: `delete(u.Following, userID)`. -/
def User.Unfollow (u : User) (userID : String) : User :=
  { u with following := u.following.filter (fun x => x ≠ userID) }

/-- Method `User.IsFollowing`: membership in the `Following` map. -/
def User.IsFollowing (u : User) (userID : String) : Bool :=
  u.following.contains userID

/-- The comparison `sort.Slice` uses in both timeline implementations:
`less(i, j) = tweets[i].CreatedAt.After(tweets[j].CreatedAt)`, i.e. the
resulting order is newest first.  As a sorting relation this is the total
preorder `b.createdAt ≤ a.createdAt`. -/
def newestFirst (a b : Tweet) : Prop := b.createdAt ≤ a.createdAt

instance : DecidableRel newestFirst := fun a b =>
  inferInstanceAs (Decidable (b.createdAt ≤ a.createdAt))

instance : IsTotal Tweet newestFirst := ⟨fun a b => le_total b.createdAt a.createdAt⟩

instance : IsTrans Tweet newestFirst := ⟨fun _ _ _ h1 h2 => le_trans h2 h1⟩

/-- The timeline sort (`sort.Slice(allTweets, ...)` with the newest-first
comparison).  `sort.Slice` produces some permutation of its input that is
sorted for the comparison; insertion sort is one such permutation. -/
def sortTimeline (l : List Tweet) : List Tweet :=
  l.insertionSort newestFirst

/-! ## Redis timeline cache (`infrastructure/cache/timeline_cache.go`)

The cache state is the set of Redis keys `timeline:<userID>` together with
the stored (JSON-serialised) timeline and its absolute expiry instant.  A
`SET key val ttl` stores the value with expiry `now + ttl`; a `GET` of a key
whose expiry has passed behaves exactly like an absent key; `DEL` removes
the key.  JSON serialisation round-trips, so entries hold tweets directly. -/

/-- Cache state: association list from viewer ID to (timeline, expiry). -/
def CacheState : Type := List (String × List Tweet × Nat)

/-- The value Redis `GET timeline:<k>` observes at instant `now`: the stored
timeline when an unexpired entry exists, otherwise a miss. -/
def cacheLookup (now : Nat) (k : String) (s : CacheState) : Option (List Tweet) :=
  match s.find? (fun e => e.1 == k) with
  | some e => if now < e.2.2 then some e.2.1 else none
  | none => none

/-- Redis `SET timeline:<k> v EX ttl` at instant `now`: overwrite any entry
for `k` with the new value, expiring at `now + ttl`. -/
def cachePut (now ttl : Nat) (k : String) (v : List Tweet) (s : CacheState) : CacheState :=
  (k, v, now + ttl) :: s.filter (fun e => !(e.1 == k))

/-- Redis `DEL timeline:<k>` (`InvalidateTimeline`): unconditionally remove
any entry for `k`; absence is not an error. -/
def cacheInvalidate (k : String) (s : CacheState) : CacheState :=
  s.filter (fun e => !(e.1 == k))

/-- Method `RedisTimelineCache.GetTimeline`: returns `(timeline, found, err)`.  A
transport failure yields `(nil, false, err)`; otherwise an unexpired entry is
a hit `(tl, true, nil)` and anything else a clean miss `(nil, false, nil)`. -/
def redisGetTimeline (transportFails : Bool) (now : Nat) (k : String) (s : CacheState) :
    Option (List Tweet) × Bool × Option GoError :=
  if transportFails then
    (none, false, some (GoError.storeError "failed to get timeline from Redis"))
  else
    match cacheLookup now k s with
    | some tl => (some tl, true, none)
    | none => (none, false, none)

/-- Method `RedisTimelineCache.SetTimeline`: on transport failure the state is
unchanged and the error is returned; otherwise the entry is stored with the
fixed TTL from the moment of insertion. -/
def redisSetTimeline (transportFails : Bool) (now ttl : Nat) (k : String)
    (v : List Tweet) (s : CacheState) : Except GoError Unit × CacheState :=
  if transportFails then
    (Except.error (GoError.storeError "failed to set timeline cache in Redis"), s)
  else
    (Except.ok (), cachePut now ttl k v s)

/-- Method `RedisTimelineCache.InvalidateTimeline`: on transport failure the state
is unchanged and the error is returned; otherwise the key is deleted. -/
def redisInvalidateTimeline (transportFails : Bool) (k : String) (s : CacheState) :
    Except GoError Unit × CacheState :=
  if transportFails then
    (Except.error (GoError.storeError "failed to invalidate timeline cache in Redis"), s)
  else
    (Except.ok (), cacheInvalidate k s)

/-! ## DynamoDB repositories
(`infrastructure/repository/dynamodb/tweet_repository.go`)

The users table is a list of users looked up by ID (`FindByID` returns
`nil, nil` when absent); the tweets table is a list of tweets keyed by ID,
and the `UserIDIndex` GSI query returns exactly the tweets whose `UserID`
attribute matches. -/

/-- Lookup `UserRepository.FindByID` against the users table (healthy transport):
`some u` when present, `none` (Go `nil, nil`) when absent. -/
def findUser (users : List User) (id : String) : Option User :=
  users.find? (fun u => u.id == id)

/-- Query `queryTweetsByUserIDWithContext`: the GSI query
`UserID = :userID` returns exactly the tweets authored by `userID`. -/
def queryTweetsByUserID (store : List Tweet) (userID : String) : List Tweet :=
  store.filter (fun t => t.userId == userID)

/-- The fan-out over `idsToFetch` inside `GetTimeline`: one
`queryTweetsByUserIDWithContext` per ID through `errgroup`, appending each
result to the shared `allTweets` slice under the mutex.  Any failing fetch
fails the whole group (`g.Wait` returns the error, partial results are
discarded); on success all per-author lists are concatenated. -/
def fetchAll (fetch : String → Except GoError (List Tweet)) :
    List String → Except GoError (List Tweet)
  | [] => Except.ok []
  | id :: rest =>
    match fetch id with
    | Except.error e =>
      Except.error (GoError.wrapped "failed to get tweets for user during timeline fetch" e)
    | Except.ok ts =>
      match fetchAll fetch rest with
      | Except.error e => Except.error e
      | Except.ok acc => Except.ok (ts ++ acc)

/-- Method `DynamoDBTweetRepository.GetTimeline`.  Outcomes of the external calls
are explicit: `getFails` (cache lookup transport error — logged, treated as
a miss), `userRes` (the `userRepo.FindByID` call), `fetch` (the per-author
DynamoDB queries) and `setFails` (the cache write — logged, never failing
the read).  Returns the result together with the cache state after the call
(at instant `now`, cache TTL `ttl`). -/
def ddbGetTimeline (getFails : Bool) (userRes : Except GoError (Option User))
    (fetch : String → Except GoError (List Tweet)) (setFails : Bool)
    (now ttl : Nat) (userID : String) (cache : CacheState) :
    Except GoError (List Tweet) × CacheState :=
  match if getFails then none else cacheLookup now userID cache with
  | some cachedTimeline => (Except.ok cachedTimeline, cache)
  | none =>
    match userRes with
    | Except.error e =>
      (Except.error (GoError.wrapped "failed to get user for timeline" e), cache)
    | Except.ok none => (Except.error GoError.userNotFound, cache)
    | Except.ok (some user) =>
      let idsToFetch := userID :: user.following
      match fetchAll fetch idsToFetch with
      | Except.error e => (Except.error e, cache)
      | Except.ok allTweets =>
        let sorted := sortTimeline allTweets
        if setFails then (Except.ok sorted, cache)
        else (Except.ok sorted, cachePut now ttl userID sorted cache)

/-- Composition of `GetTimeline` with every external call healthy: the cache lookup works,
`FindByID` reads the users table and every fan-out query reads the tweets
table. -/
def ddbGetTimelineH (users : List User) (store : List Tweet)
    (now ttl : Nat) (userID : String) (cache : CacheState) :
    Except GoError (List Tweet) × CacheState :=
  ddbGetTimeline false (Except.ok (findUser users userID))
    (fun id => Except.ok (queryTweetsByUserID store id)) false now ttl userID cache

/-- Method `TweetUseCase.GetTimeline` (`application/usecase/tweet_usecase.go`):
checks that the viewer exists in the user store (`ErrUserNotFound` when
`FindByID` returns nil) before delegating to the repository. -/
def tweetUseCaseGetTimeline (users : List User) (getFails : Bool)
    (fetch : String → Except GoError (List Tweet)) (setFails : Bool)
    (now ttl : Nat) (userID : String) (cache : CacheState) :
    Except GoError (List Tweet) × CacheState :=
  match findUser users userID with
  | none => (Except.error GoError.userNotFound, cache)
  | some _ =>
    ddbGetTimeline getFails (Except.ok (findUser users userID)) fetch setFails
      now ttl userID cache

/-- Method `DynamoDBTweetRepository.Save`: `PutItem` writes the tweet (keyed by ID,
overwriting), then the author's timeline cache entry is invalidated; a
failure of the invalidation (`invFails`) is only logged and the save still
succeeds.  Returns (result, tweets table, cache state). -/
def ddbSave (putFails invFails : Bool) (store : List Tweet) (cache : CacheState)
    (tweet : Tweet) : Except GoError Unit × List Tweet × CacheState :=
  if putFails then
    (Except.error (GoError.storeError "failed to save tweet to DynamoDB"), store, cache)
  else
    let store2 := tweet :: store.filter (fun t => !(t.id == tweet.id))
    if invFails then (Except.ok (), store2, cache)
    else (Except.ok (), store2, cacheInvalidate tweet.userId cache)

/-- Method `DynamoDBTweetRepository.Delete`: `FindByID` first (absent tweet is
`ErrTweetNotFound`), then `DeleteItem`, then invalidation of the author's
timeline cache entry (failure only logged). -/
def ddbDelete (deleteFails invFails : Bool) (store : List Tweet) (cache : CacheState)
    (id : String) : Except GoError Unit × List Tweet × CacheState :=
  match store.find? (fun t => t.id == id) with
  | none => (Except.error GoError.tweetNotFound, store, cache)
  | some tweet =>
    if deleteFails then
      (Except.error (GoError.storeError "failed to delete tweet from DynamoDB"), store, cache)
    else
      let store2 := store.filter (fun t => !(t.id == id))
      if invFails then (Except.ok (), store2, cache)
      else (Except.ok (), store2, cacheInvalidate tweet.userId cache)

/-! ## In-memory tweet repository
(`infrastructure/repository/memory/tweet_repository.go`) -/

/-- Lookup in a Go map modelled as an association list. -/
def mapLookup (k : String) (m : List (String × List Tweet)) : Option (List Tweet) :=
  (m.find? (fun e => e.1 == k)).map (fun e => e.2)

/-- Assignment `m[k] = v` in a Go map modelled as an association list. -/
def mapInsert (k : String) (v : List Tweet) (m : List (String × List Tweet)) :
    List (String × List Tweet) :=
  (k, v) :: m.filter (fun e => !(e.1 == k))

/-- The in-memory `TweetRepository` state: the tweet map (keyed by tweet ID),
the per-user tweet lists and the `userTimeline` cache of assembled
timelines. -/
structure MemTweetRepository where
  tweets : List Tweet
  userTweets : List (String × List Tweet)
  userTimeline : List (String × List Tweet)
  deriving DecidableEq, Repr

/-- Memory `TweetRepository.Save`: stores the tweet (map assignment by ID),
appends it to the author's tweet list, then calls `invalidateTimelines`,
which "for simplicity, just clears all timelines"
(`r.userTimeline = make(map[string][]*entity.Tweet)`). -/
def memSave (r : MemTweetRepository) (tweet : Tweet) : MemTweetRepository :=
  { tweets := tweet :: r.tweets.filter (fun t => !(t.id == tweet.id))
    userTweets :=
      mapInsert tweet.userId ((mapLookup tweet.userId r.userTweets).getD [] ++ [tweet])
        r.userTweets
    userTimeline := [] }

/-! ## User use cases (`application/usecase/user_usecase.go`) -/

/-- Method `UserUseCase.FollowUser`: both users must exist, the follower entity is
updated through `User.Follow`, persisted, and then the follower's timeline
cache entry is invalidated — a failing invalidation (`invFails`) is only
logged and the operation still returns success.  The user store is read with
healthy transport; `updateFails` is the outcome of the `Update` call. -/
def userUseCaseFollowUser (users : List User) (updateFails invFails : Bool)
    (cache : CacheState) (followerID followedID : String) :
    Except GoError Unit × CacheState :=
  match findUser users followerID with
  | none => (Except.error GoError.userNotFound, cache)
  | some follower =>
    match findUser users followedID with
    | none => (Except.error GoError.userNotFound, cache)
    | some _ =>
      match follower.Follow followedID with
      | Except.error e => (Except.error e, cache)
      | Except.ok _ =>
        if updateFails then
          (Except.error (GoError.wrapped "failed to update follower after follow"
            (GoError.storeError "update")), cache)
        else if invFails then (Except.ok (), cache)
        else (Except.ok (), cacheInvalidate followerID cache)

/-- Method `UserUseCase.UnfollowUser`: the follower must exist, `User.Unfollow`
removes the edge (never fails), the entity is persisted, then the
follower's timeline cache entry is invalidated (failure only logged). -/
def userUseCaseUnfollowUser (users : List User) (updateFails invFails : Bool)
    (cache : CacheState) (followerID followedID : String) :
    Except GoError Unit × CacheState :=
  match findUser users followerID with
  | none => (Except.error GoError.userNotFound, cache)
  | some follower =>
    let _ := follower.Unfollow followedID
    if updateFails then
      (Except.error (GoError.wrapped "failed to update follower after unfollow"
        (GoError.storeError "update")), cache)
    else if invFails then (Except.ok (), cache)
    else (Except.ok (), cacheInvalidate followerID cache)

/-! ## Sequences of follow/unfollow operations on a `User` entity -/

/-- One mutation of a user's `Following` map through the entity API. -/
inductive FollowOp where
  | follow (target : String)
  | unfollow (target : String)
  deriving DecidableEq, Repr

/-- Applying one operation: a failed `Follow` (self-follow) leaves the entity
unchanged, exactly as the Go method returns before touching the map. -/
def applyFollowOp (u : User) : FollowOp → User
  | FollowOp.follow t =>
    match u.Follow t with
    | Except.ok u2 => u2
    | Except.error _ => u
  | FollowOp.unfollow t => u.Unfollow t

/-- Applying a sequence of follow/unfollow operations in order. -/
def applyFollowOps (u : User) (ops : List FollowOp) : User :=
  ops.foldl applyFollowOp u

/-- The timeline the DB path of `GetTimeline` assembles for a stored user
`u` resolved for viewer `userID`: the concatenated per-author query results
for the fetch set, sorted newest first. -/
def assembleTimeline (store : List Tweet) (userID : String) (u : User) : List Tweet :=
  sortTimeline ((userID :: u.following).flatMap (queryTweetsByUserID store))

/-! ## Concrete instances used by witnesses and counterexamples -/

/-- Users used to instantiate C1: viewer "a" follows "b". -/
def usersC1 : List User := [{ id := "a", username := "a", following := ["b"] }]

/-- Tweets table used to instantiate C1: one tweet by "a", one by "b" and
one by the unfollowed "c". -/
def storeC1 : List Tweet :=
  [ { id := "t1", userId := "a", content := "x", createdAt := 1 },
    { id := "t2", userId := "b", content := "y", createdAt := 5 },
    { id := "t3", userId := "c", content := "z", createdAt := 3 } ]

/-- An in-memory repository state in which viewer "w" (who follows "b") has
a cached timeline, used to instantiate the memory repository's clear-all
invalidation. -/
def memRepoW : MemTweetRepository :=
  { tweets := []
    userTweets := []
    userTimeline := [("w", [{ id := "t0", userId := "b", content := "x", createdAt := 1 }])] }

/-- Tweets table used to instantiate C6: one existing tweet by "u2". -/
def storeC6 : List Tweet := [{ id := "d1", userId := "u2", content := "m", createdAt := 3 }]

/-- Cache used to instantiate C6: entries for the author "u1" and for the
unrelated viewer "w". -/
def cacheC6 : CacheState := [("u1", [], 50), ("w", [], 50)]

/-- User store used to instantiate C7: "alice" and "bob", not yet following
each other. -/
def usersC7 : List User :=
  [{ id := "alice", username := "alice", following := [] },
   { id := "bob", username := "bob", following := [] }]

/-- A stale timeline for "alice", cached before the follow. -/
def staleC7 : List Tweet := [{ id := "t0", userId := "bob", content := "old", createdAt := 1 }]

/-- Cache used to instantiate C7: "alice" still has the stale entry. -/
def cacheC7 : CacheState := [("alice", staleC7, 100)]

/-- Users used to instantiate C8: viewer "v" follows "b". -/
def usersC8 : List User := [{ id := "v", username := "v", following := ["b"] }]

/-- The tweet "b" posted after "v"'s timeline was cached; the author-only
invalidation removed only "b"'s own entry, not "v"'s. -/
def tweetC8 : Tweet := { id := "tb", userId := "b", content := "n", createdAt := 7 }

/-- Tweets table used to instantiate C8. -/
def storeC8 : List Tweet := [tweetC8]

/-- Cache used to instantiate C8: "v"'s empty timeline, cached (expiry 100)
before "b" posted and left in place by the author-only invalidation. -/
def cacheC8 : CacheState := [("v", [], 100)]

/-! ## Shared lemmas about the cache state -/

theorem sortTimeline_perm (l : List Tweet) : List.Perm (sortTimeline l) l :=
  List.perm_insertionSort newestFirst l

theorem sortTimeline_sorted (l : List Tweet) :
    (sortTimeline l).Sorted newestFirst :=
  List.sorted_insertionSort newestFirst l

theorem find?_filter_ne (s : CacheState) (k v : String) (h : v ≠ k) :
    (s.filter (fun e => !(e.1 == k))).find? (fun e => e.1 == v) =
      s.find? (fun e => e.1 == v) := by
  induction s with
  | nil => rfl
  | cons e rest ih =>
    by_cases hek : e.1 = k
    · have h2 : v ≠ e.1 := fun hv => h (by rw [hv, hek])
      rw [List.filter_cons_of_neg (by simp [hek]),
        List.find?_cons_of_neg _ (by simp [h2.symm]), ih]
    · rw [List.filter_cons_of_pos (by simp [hek])]
      by_cases hev : e.1 = v
      · rw [List.find?_cons_of_pos _ (by simp [hev]),
          List.find?_cons_of_pos _ (by simp [hev])]
      · rw [List.find?_cons_of_neg _ (by simp [hev]),
          List.find?_cons_of_neg _ (by simp [hev]), ih]

theorem cacheLookup_cachePut_self (now ttl t : Nat) (k : String) (v : List Tweet)
    (s : CacheState) :
    cacheLookup t k (cachePut now ttl k v s) =
      if t < now + ttl then some v else none := by
  unfold cacheLookup cachePut
  rw [List.find?_cons_of_pos _ (by simp)]

theorem cacheLookup_cachePut_other (now ttl t : Nat) (k v : String) (w : List Tweet)
    (s : CacheState) (h : v ≠ k) :
    cacheLookup t v (cachePut now ttl k w s) = cacheLookup t v s := by
  unfold cacheLookup cachePut
  rw [List.find?_cons_of_neg _ (by simp [h.symm]), find?_filter_ne s k v h]

theorem cacheLookup_invalidate_self (t : Nat) (k : String) (s : CacheState) :
    cacheLookup t k (cacheInvalidate k s) = none := by
  unfold cacheLookup cacheInvalidate
  have : (s.filter (fun e => !(e.1 == k))).find? (fun e => e.1 == k) = none := by
    rw [List.find?_eq_none]
    intro e he
    have := (List.mem_filter.mp he).2
    simpa using this
  rw [this]

theorem cacheLookup_invalidate_other (t : Nat) (k v : String) (s : CacheState)
    (h : v ≠ k) :
    cacheLookup t v (cacheInvalidate k s) = cacheLookup t v s := by
  unfold cacheLookup cacheInvalidate
  rw [find?_filter_ne s k v h]

theorem cacheLookup_agree (t t2 : Nat) (k : String) (s : CacheState)
    (a b : List Tweet) (ha : cacheLookup t k s = some a)
    (hb : cacheLookup t2 k s = some b) : a = b := by
  unfold cacheLookup at ha hb
  cases hfind : s.find? (fun e => e.1 == k) with
  | none => simp [hfind] at ha
  | some e =>
    simp only [hfind] at ha hb
    by_cases h1 : t < e.2.2
    · by_cases h2 : t2 < e.2.2
      · rw [if_pos h1] at ha; rw [if_pos h2] at hb
        cases ha; cases hb; rfl
      · rw [if_neg h2] at hb; exact absurd hb (by simp)
    · rw [if_neg h1] at ha; exact absurd ha (by simp)

/-! ## Shared lemmas about the fan-out and the assembled timeline -/

theorem fetchAll_ok (fetch : String → Except GoError (List Tweet))
    (g : String → List Tweet) (ids : List String)
    (h : ∀ id ∈ ids, fetch id = Except.ok (g id)) :
    fetchAll fetch ids = Except.ok (ids.flatMap g) := by
  induction ids with
  | nil => rfl
  | cons id rest ih =>
    have hid : fetch id = Except.ok (g id) := h id (List.mem_cons_self id rest)
    have hrest : fetchAll fetch rest = Except.ok (rest.flatMap g) :=
      ih (fun x hx => h x (List.mem_cons_of_mem id hx))
    unfold fetchAll
    rw [hid, hrest]
    simp

theorem fetchAll_error (fetch : String → Except GoError (List Tweet))
    (ids : List String) (id : String) (hmem : id ∈ ids)
    (e : GoError) (hf : fetch id = Except.error e) :
    ∃ e2, fetchAll fetch ids = Except.error e2 := by
  induction ids with
  | nil => exact absurd hmem (List.not_mem_nil id)
  | cons x rest ih =>
    unfold fetchAll
    cases hx : fetch x with
    | error e3 => exact ⟨_, rfl⟩
    | ok ts =>
      rcases List.mem_cons.mp hmem with heq | hmem2
      · rw [heq] at hf; rw [hf] at hx; exact absurd hx (by simp)
      · rcases ih hmem2 with ⟨e2, h2⟩
        rw [h2]
        exact ⟨e2, rfl⟩

theorem ddbGetTimelineH_hit (users : List User) (store : List Tweet)
    (now ttl : Nat) (userID : String) (cache : CacheState) (tl : List Tweet)
    (hhit : cacheLookup now userID cache = some tl) :
    ddbGetTimelineH users store now ttl userID cache = (Except.ok tl, cache) := by
  unfold ddbGetTimelineH ddbGetTimeline
  rw [if_neg (by simp), hhit]

theorem ddbGetTimelineH_miss (users : List User) (store : List Tweet)
    (now ttl : Nat) (userID : String) (cache : CacheState) (u : User)
    (hmiss : cacheLookup now userID cache = none)
    (huser : findUser users userID = some u) :
    ddbGetTimelineH users store now ttl userID cache =
      (Except.ok (assembleTimeline store userID u),
        cachePut now ttl userID (assembleTimeline store userID u) cache) := by
  have hfetch : fetchAll (fun id => Except.ok (queryTweetsByUserID store id))
      (userID :: u.following) =
      Except.ok ((userID :: u.following).flatMap (queryTweetsByUserID store)) :=
    fetchAll_ok _ (queryTweetsByUserID store) _ (fun id _ => rfl)
  unfold ddbGetTimelineH ddbGetTimeline
  simp only [hmiss, huser, Bool.false_eq_true, if_false, hfetch, assembleTimeline]

/-! ## Lemmas about the user entity operations -/

theorem applyFollowOp_id (u : User) (op : FollowOp) :
    (applyFollowOp u op).id = u.id := by
  cases op with
  | follow t =>
    simp only [applyFollowOp, User.Follow]
    by_cases h : u.id = t
    · rw [if_pos (by simp [h])]
    · rw [if_neg (by simp [h])]
  | unfollow t => rfl

theorem applyFollowOp_self_not_mem (u : User) (op : FollowOp)
    (h : u.id ∉ u.following) : u.id ∉ (applyFollowOp u op).following := by
  cases op with
  | follow t =>
    simp only [applyFollowOp, User.Follow]
    by_cases hid : u.id = t
    · rw [if_pos (by simp [hid])]
      exact h
    · rw [if_neg (by simp [hid])]
      show u.id ∉ insertKey t u.following
      unfold insertKey
      by_cases hmem : t ∈ u.following
      · rw [if_pos hmem]; exact h
      · rw [if_neg hmem]
        intro hm
        rcases List.mem_append.mp hm with h1 | h2
        · exact h h1
        · exact hid (List.mem_singleton.mp h2)
  | unfollow t =>
    simp only [applyFollowOp, User.Unfollow]
    intro hm
    exact h (List.mem_of_mem_filter hm)

theorem applyFollowOps_inv (ops : List FollowOp) (u : User)
    (h : u.id ∉ u.following) :
    (applyFollowOps u ops).id = u.id ∧
      (applyFollowOps u ops).id ∉ (applyFollowOps u ops).following := by
  induction ops generalizing u with
  | nil => exact ⟨rfl, h⟩
  | cons op rest ih =>
    have step : applyFollowOps u (op :: rest) = applyFollowOps (applyFollowOp u op) rest := rfl
    rw [step]
    have h2 : (applyFollowOp u op).id ∉ (applyFollowOp u op).following := by
      rw [applyFollowOp_id]
      exact applyFollowOp_self_not_mem u op h
    obtain ⟨ha, hb⟩ := ih (applyFollowOp u op) h2
    exact ⟨ha.trans (applyFollowOp_id u op), hb⟩

/-! ## The claims -/

/-- C10: `NewTweet` returns `ErrTweetTooLong` (and no tweet) exactly when the
byte length of the content exceeds 280 — Go `len(content)` counts bytes, so
multi-byte text is rejected below 280 characters; otherwise it returns a
tweet whose ID, UserID and Content equal the given arguments exactly. -/
theorem newTweet_length_check (id userID content : String) (now : Int) :
    (NewTweet id userID content now = Except.error GoError.tweetTooLong ↔
      280 < content.utf8ByteSize) ∧
    (content.utf8ByteSize ≤ 280 →
      NewTweet id userID content now =
        Except.ok { id := id, userId := userID, content := content, createdAt := now }) := by
  unfold NewTweet MaxTweetLength
  by_cases h : 280 < content.utf8ByteSize
  · simp [h]
  · simp [h, not_lt.mp h]

/-- Witness for C10: a 4-byte content is accepted with the fields preserved,
and a content of 100 four-byte code points (400 bytes) is rejected even
though it has only 100 characters. -/
theorem newTweet_length_check_witness :
    NewTweet "t1" "u1" "hola" 5 =
      Except.ok { id := "t1", userId := "u1", content := "hola", createdAt := 5 } :=
  (newTweet_length_check "t1" "u1" "hola" 5).2 (by decide)

/-- C9: `Follow` with the user's own ID returns `ErrCannotFollowSelf` and
leaves the `Following` set unchanged, and for every sequence of follow and
unfollow operations applied to a freshly created user the user's own ID is
never a member of its `Following` set. -/
theorem user_cannot_follow_self (u : User) (id username : String)
    (ops : List FollowOp) :
    u.Follow u.id = Except.error GoError.cannotFollowSelf ∧
    applyFollowOp u (FollowOp.follow u.id) = u ∧
    id ∉ (applyFollowOps (NewUser id username) ops).following := by
  refine ⟨?_, ?_, ?_⟩
  · unfold User.Follow
    rw [if_pos (by simp)]
  · simp [applyFollowOp, User.Follow]
  · have hinv := applyFollowOps_inv ops (NewUser id username) (by simp [NewUser])
    have := hinv.2
    rw [hinv.1] at this
    exact this

/-- C5: after a successful `SetTimeline(V, T)` at instant `now`, a healthy
`GetTimeline(V)` returns `(T, true, nil)` at every instant before `now + ttl`,
returns a clean miss once the TTL has elapsed, and returns a clean miss after
`InvalidateTimeline(V)`. -/
theorem cache_put_get_ttl_invalidate (s s2 : CacheState) (k : String)
    (tl : List Tweet) (now ttl t : Nat)
    (hput : redisSetTimeline false now ttl k tl s = (Except.ok (), s2)) :
    (t < now + ttl → redisGetTimeline false t k s2 = (some tl, true, none)) ∧
    (now + ttl ≤ t → redisGetTimeline false t k s2 = (none, false, none)) ∧
    redisGetTimeline false t k (redisInvalidateTimeline false k s2).2 =
      (none, false, none) := by
  have hs2 : s2 = cachePut now ttl k tl s := by
    simp only [redisSetTimeline, Bool.false_eq_true, if_false, Prod.mk.injEq] at hput
    exact hput.2.symm
  subst hs2
  refine ⟨?_, ?_, ?_⟩
  · intro hlt
    simp [redisGetTimeline, cacheLookup_cachePut_self, hlt]
  · intro hge
    simp [redisGetTimeline, cacheLookup_cachePut_self, not_lt.mpr hge]
  · simp [redisGetTimeline, redisInvalidateTimeline, cacheLookup_invalidate_self]

/-- Witness for C5: a concrete put at instant 0 with TTL 300 is a hit at
instant 3. -/
theorem cache_put_get_ttl_invalidate_witness :
    redisGetTimeline false 3 "alice" (redisSetTimeline false 0 300 "alice" [] []).2 =
      (some [], true, none) :=
  (cache_put_get_ttl_invalidate [] (redisSetTimeline false 0 300 "alice" [] []).2
    "alice" [] 0 300 3 rfl).1 (by decide)

/-- C3: a timeline request through `TweetUseCase.GetTimeline` for a viewer ID
absent from the user store returns `ErrUserNotFound` and no timeline, for
every cache state — even when a timeline for that ID is still cached, because
the use case checks the user store before the repository looks at the
cache. -/
theorem useCase_getTimeline_userNotFound (users : List User)
    (getFails setFails : Bool) (fetch : String → Except GoError (List Tweet))
    (now ttl : Nat) (userID : String) (cache : CacheState)
    (habs : findUser users userID = none) :
    tweetUseCaseGetTimeline users getFails fetch setFails now ttl userID cache =
      (Except.error GoError.userNotFound, cache) := by
  unfold tweetUseCaseGetTimeline
  rw [habs]

/-- Witness for C3: the viewer is absent from an empty user store while its
old timeline is still cached; the request still returns `ErrUserNotFound`. -/
theorem useCase_getTimeline_userNotFound_witness :
    tweetUseCaseGetTimeline [] false (fun _ => Except.ok []) false 0 300 "ghost"
      [("ghost", [{ id := "t1", userId := "ghost", content := "hi", createdAt := 1 }], 100)] =
      (Except.error GoError.userNotFound,
        [("ghost", [{ id := "t1", userId := "ghost", content := "hi", createdAt := 1 }], 100)]) :=
  useCase_getTimeline_userNotFound [] false false (fun _ => Except.ok []) 0 300 "ghost"
    [("ghost", [{ id := "t1", userId := "ghost", content := "hi", createdAt := 1 }], 100)] rfl

/-- C2: on a cache miss, if any single per-author fetch of the fan-out fails,
`GetTimeline` returns an error — never a partial timeline built from the
fetches that succeeded — and the cache is left unchanged. -/
theorem ddbGetTimeline_failFast (u : User)
    (fetch : String → Except GoError (List Tweet)) (setFails : Bool)
    (now ttl : Nat) (userID : String) (cache : CacheState)
    (hmiss : cacheLookup now userID cache = none)
    (id : String) (hmem : id ∈ userID :: u.following)
    (e : GoError) (hf : fetch id = Except.error e) :
    ∃ e2, ddbGetTimeline false (Except.ok (some u)) fetch setFails now ttl userID cache =
      (Except.error e2, cache) := by
  rcases fetchAll_error fetch (userID :: u.following) id hmem e hf with ⟨e2, h2⟩
  refine ⟨e2, ?_⟩
  unfold ddbGetTimeline
  simp [hmiss, h2]

/-- Witness for C2: viewer alice follows bob and carol; bob's fetch fails
while the others succeed, and the whole assembly errors out. -/
theorem ddbGetTimeline_failFast_witness :
    ∃ e2, ddbGetTimeline false
        (Except.ok (some { id := "alice", username := "a", following := ["bob", "carol"] }))
        (fun id => if id == "bob" then Except.error (GoError.storeError "down")
          else Except.ok [])
        false 0 300 "alice" [] = (Except.error e2, []) :=
  ddbGetTimeline_failFast { id := "alice", username := "a", following := ["bob", "carol"] }
    (fun id => if id == "bob" then Except.error (GoError.storeError "down")
      else Except.ok [])
    false 0 300 "alice" [] rfl "bob" (by simp) (GoError.storeError "down") rfl

/-- C4: cache-layer failures never fail a read.  When the cache lookup
errors (treated as a miss, only logged) or cleanly misses, and whether or
not the cache write-back after recomputation fails, `GetTimeline` still
returns the freshly assembled timeline as long as the viewer resolves and
every per-author fetch succeeds. -/
theorem ddbGetTimeline_cacheFailureSoft (getFails setFails : Bool) (u : User)
    (fetch : String → Except GoError (List Tweet)) (g : String → List Tweet)
    (now ttl : Nat) (userID : String) (cache : CacheState)
    (hmiss : getFails = true ∨ cacheLookup now userID cache = none)
    (hfetch : ∀ id ∈ userID :: u.following, fetch id = Except.ok (g id)) :
    (ddbGetTimeline getFails (Except.ok (some u)) fetch setFails now ttl userID cache).1 =
      Except.ok (sortTimeline ((userID :: u.following).flatMap g)) := by
  have hall := fetchAll_ok fetch g _ hfetch
  have heff : (if getFails then none else cacheLookup now userID cache) =
      (none : Option (List Tweet)) := by
    rcases hmiss with hg | hl
    · rw [hg]; simp
    · cases getFails <;> simp [hl]
  unfold ddbGetTimeline
  rw [heff]
  simp only [hall]
  cases setFails <;> simp

/-- Witness for C4: the cache lookup errors while a stale entry exists and
the write-back also fails; the read still returns the assembled (empty)
timeline. -/
theorem ddbGetTimeline_cacheFailureSoft_witness :
    (ddbGetTimeline true
        (Except.ok (some { id := "alice", username := "a", following := [] }))
        (fun _ => Except.ok []) true 0 300 "alice"
        [("alice", [{ id := "old", userId := "alice", content := "s", createdAt := 0 }], 100)]).1 =
      Except.ok [] :=
  (ddbGetTimeline_cacheFailureSoft true true
    { id := "alice", username := "a", following := [] }
    (fun _ => Except.ok []) (fun _ => []) 0 300 "alice"
    [("alice", [{ id := "old", userId := "alice", content := "s", createdAt := 0 }], 100)]
    (Or.inl rfl) (fun _ _ => rfl)).trans rfl

/-- C1: on a cache miss for a viewer that exists in the user store,
`GetTimeline` returns exactly the tweets whose author belongs to the fetch
set {viewer} ∪ following — no duplicates, no omissions — and for all
positions i < j the tweet at i was not created earlier than the tweet at j
(newest first). -/
theorem ddbGetTimeline_assembles_exactly (users : List User) (store : List Tweet)
    (now ttl : Nat) (userID : String) (cache : CacheState) (u : User)
    (hmiss : cacheLookup now userID cache = none)
    (huser : findUser users userID = some u)
    (hF : (userID :: u.following).Nodup)
    (hstore : store.Nodup) :
    ∃ tl, (ddbGetTimelineH users store now ttl userID cache).1 = Except.ok tl ∧
      (∀ t : Tweet, t ∈ tl ↔ t ∈ store ∧ t.userId ∈ userID :: u.following) ∧
      tl.Nodup ∧
      tl.Pairwise (fun a b => b.createdAt ≤ a.createdAt) := by
  refine ⟨assembleTimeline store userID u, ?_, ?_, ?_, ?_⟩
  · rw [ddbGetTimelineH_miss users store now ttl userID cache u hmiss huser]
  · intro t
    unfold assembleTimeline
    rw [(sortTimeline_perm _).mem_iff, List.mem_flatMap]
    unfold queryTweetsByUserID
    constructor
    · rintro ⟨i, hi, hti⟩
      obtain ⟨ht, heq⟩ := List.mem_filter.mp hti
      have hui : t.userId = i := by simpa using heq
      exact ⟨ht, by rw [hui]; exact hi⟩
    · rintro ⟨ht, hui⟩
      exact ⟨t.userId, hui, List.mem_filter.mpr ⟨ht, by simp⟩⟩
  · unfold assembleTimeline
    refine (sortTimeline_perm _).nodup_iff.mpr ?_
    refine List.nodup_flatMap.mpr ⟨?_, ?_⟩
    · intro i _
      exact hstore.filter _
    · refine hF.imp ?_
      intro a b hab
      intro t hta htb
      have ha : t.userId = a := by simpa using (List.mem_filter.mp hta).2
      have hb : t.userId = b := by simpa using (List.mem_filter.mp htb).2
      exact hab (ha ▸ hb)
  · exact sortTimeline_sorted _

/-- Witness for C1 at a concrete store: the timeline for "a" contains
exactly the tweets of "a" and "b", without duplicates, newest first. -/
theorem ddbGetTimeline_assembles_exactly_witness :
    ∃ tl, (ddbGetTimelineH usersC1 storeC1 0 300 "a" []).1 = Except.ok tl ∧
      (∀ t : Tweet, t ∈ tl ↔ t ∈ storeC1 ∧ t.userId ∈ "a" :: ["b"]) ∧
      tl.Nodup ∧
      tl.Pairwise (fun a b => b.createdAt ≤ a.createdAt) :=
  ddbGetTimeline_assembles_exactly usersC1 storeC1 0 300 "a" []
    { id := "a", username := "a", following := ["b"] }
    rfl rfl (by decide) (by decide)

/-- Counterexample to C8 as stated: viewer "v" follows "b"; an empty
timeline for "v" was cached (expiry 100) before "b" posted, and the
author-only invalidation left it in place.  With no write between the two
reads, the first read (instant 50) hits the stale entry and returns the
empty timeline, while the second (instant 400, the entry TTL-expired)
recomputes from the store and returns "b"'s tweet: the memberships
differ. -/
theorem getTimeline_stale_then_expired :
    (ddbGetTimelineH usersC8 storeC8 50 300 "v" cacheC8).1 = Except.ok [] ∧
    (ddbGetTimelineH usersC8 storeC8 400 300 "v"
        (ddbGetTimelineH usersC8 storeC8 50 300 "v" cacheC8).2).1 =
      Except.ok [tweetC8] ∧
    ¬ (∀ x : Tweet, x ∈ ([] : List Tweet) ↔ x ∈ [tweetC8]) :=
  ⟨rfl, rfl,
    fun h => List.not_mem_nil tweetC8 ((h tweetC8).mpr (List.mem_singleton_self tweetC8))⟩

/-- C8 amended: two consecutive `GetTimeline` calls for the same viewer with
no intervening writes return timelines with identical membership, provided
every cache entry the initial cache holds for the viewer is
membership-coherent with the current store — the proviso the stale-entry
counterexample forces: an entry left stale by the documented author-only
invalidation (a write *before* both reads) that is hit by the first read
but TTL-expires before the second breaks the equality.  The second call
runs on the cache state the first call left behind. -/
theorem getTimeline_idempotent (users : List User) (store : List Tweet)
    (t1 t2 ttl : Nat) (userID : String) (cache : CacheState) (u : User)
    (huser : findUser users userID = some u)
    (hcoh : ∀ (t : Nat) (tl : List Tweet), cacheLookup t userID cache = some tl →
      ∀ x, x ∈ tl ↔ x ∈ assembleTimeline store userID u) :
    ∃ l1 l2,
      (ddbGetTimelineH users store t1 ttl userID cache).1 = Except.ok l1 ∧
      (ddbGetTimelineH users store t2 ttl userID
        (ddbGetTimelineH users store t1 ttl userID cache).2).1 = Except.ok l2 ∧
      ∀ x, x ∈ l1 ↔ x ∈ l2 := by
  cases h1 : cacheLookup t1 userID cache with
  | some tl =>
    have hfirst := ddbGetTimelineH_hit users store t1 ttl userID cache tl h1
    rw [hfirst]
    cases h2 : cacheLookup t2 userID cache with
    | some tl2 =>
      have hsecond := ddbGetTimelineH_hit users store t2 ttl userID cache tl2 h2
      have heq : tl = tl2 := cacheLookup_agree t1 t2 userID cache tl tl2 h1 h2
      subst heq
      exact ⟨tl, tl, rfl, by rw [show (Except.ok tl, cache).2 = cache from rfl, hsecond],
        fun x => Iff.rfl⟩
    | none =>
      have hsecond := ddbGetTimelineH_miss users store t2 ttl userID cache u h2 huser
      exact ⟨tl, assembleTimeline store userID u, rfl,
        by rw [show (Except.ok tl, cache).2 = cache from rfl, hsecond],
        hcoh t1 tl h1⟩
  | none =>
    have hfirst := ddbGetTimelineH_miss users store t1 ttl userID cache u h1 huser
    rw [hfirst]
    set A := assembleTimeline store userID u with hA
    by_cases hexp : t2 < t1 + ttl
    · have h2 : cacheLookup t2 userID (cachePut t1 ttl userID A cache) = some A := by
        rw [cacheLookup_cachePut_self]
        exact if_pos hexp
      have hsecond := ddbGetTimelineH_hit users store t2 ttl userID _ A h2
      exact ⟨A, A, rfl,
        by rw [show (Except.ok A, cachePut t1 ttl userID A cache).2 =
          cachePut t1 ttl userID A cache from rfl, hsecond], fun x => Iff.rfl⟩
    · have h2 : cacheLookup t2 userID (cachePut t1 ttl userID A cache) = none := by
        rw [cacheLookup_cachePut_self]
        exact if_neg hexp
      have hsecond := ddbGetTimelineH_miss users store t2 ttl userID _ u h2 huser
      exact ⟨A, A, rfl,
        by rw [show (Except.ok A, cachePut t1 ttl userID A cache).2 =
          cachePut t1 ttl userID A cache from rfl, hsecond], fun x => Iff.rfl⟩

/-- Witness for C8: two reads for viewer "w8" (instants 0 and 7) starting
from an empty cache return timelines with the same membership. -/
theorem getTimeline_idempotent_witness :
    ∃ l1 l2,
      (ddbGetTimelineH [{ id := "w8", username := "w", following := [] }] [] 0 300 "w8" []).1 =
        Except.ok l1 ∧
      (ddbGetTimelineH [{ id := "w8", username := "w", following := [] }] [] 7 300 "w8"
        (ddbGetTimelineH [{ id := "w8", username := "w", following := [] }] [] 0 300 "w8" []).2).1 =
        Except.ok l2 ∧
      ∀ x, x ∈ l1 ↔ x ∈ l2 :=
  getTimeline_idempotent [{ id := "w8", username := "w", following := [] }] [] 0 7 300 "w8" []
    { id := "w8", username := "w", following := [] } rfl
    (fun t tl h => by simp [cacheLookup] at h)

/-- Counterexample to C6 as stated: in the in-memory `TweetRepository`,
`Save` of a new tweet by author "u" runs `invalidateTimelines`, which clears
every cached timeline — so the cached timeline of viewer "w" (a viewer other
than the author "u") does not survive the write unchanged. -/
theorem memSave_clears_other_viewer :
    mapLookup "w" memRepoW.userTimeline =
      some [{ id := "t0", userId := "b", content := "x", createdAt := 1 }] ∧
    ("u" : String) ≠ "w" ∧
    mapLookup "w"
      (memSave memRepoW { id := "t9", userId := "u", content := "hi", createdAt := 2 }).userTimeline =
      none :=
  ⟨rfl, by decide, rfl⟩

/-- C6 amended: in the DynamoDB repository (the author-only design the spec
describes), a successful `Save` of a tweet or `Delete` of an existing tweet,
with the cache delete succeeding, removes exactly the author's cached
timeline entry and leaves every other viewer's entry unchanged.  The
in-memory repository instead clears every viewer's cached timeline on any
tweet write. -/
theorem ddbWrite_invalidates_author_only (store : List Tweet) (cache : CacheState)
    (tweet : Tweet) (delID : String) (found : Tweet) (t : Nat) (v : String)
    (hfound : store.find? (fun x => x.id == delID) = some found) :
    (cacheLookup t tweet.userId (ddbSave false false store cache tweet).2.2 = none ∧
      (v ≠ tweet.userId →
        cacheLookup t v (ddbSave false false store cache tweet).2.2 =
          cacheLookup t v cache)) ∧
    (cacheLookup t found.userId (ddbDelete false false store cache delID).2.2 = none ∧
      (v ≠ found.userId →
        cacheLookup t v (ddbDelete false false store cache delID).2.2 =
          cacheLookup t v cache)) := by
  have hsave : (ddbSave false false store cache tweet).2.2 =
      cacheInvalidate tweet.userId cache := by
    simp [ddbSave]
  have hdel : (ddbDelete false false store cache delID).2.2 =
      cacheInvalidate found.userId cache := by
    simp [ddbDelete, hfound]
  refine ⟨⟨?_, ?_⟩, ?_, ?_⟩
  · rw [hsave, cacheLookup_invalidate_self]
  · intro hv
    rw [hsave, cacheLookup_invalidate_other t tweet.userId v cache hv]
  · rw [hdel, cacheLookup_invalidate_self]
  · intro hv
    rw [hdel, cacheLookup_invalidate_other t found.userId v cache hv]

/-- Witness for the amended C6: saving a tweet by "u1" removes exactly the
"u1" entry and leaves the "w" entry untouched. -/
theorem ddbWrite_invalidates_author_only_witness :
    cacheLookup 0 "u1"
      (ddbSave false false storeC6 cacheC6 { id := "t1", userId := "u1", content := "n", createdAt := 4 }).2.2 = none ∧
    cacheLookup 0 "w"
      (ddbSave false false storeC6 cacheC6 { id := "t1", userId := "u1", content := "n", createdAt := 4 }).2.2 =
      cacheLookup 0 "w" cacheC6 :=
  ⟨(ddbWrite_invalidates_author_only storeC6 cacheC6
      { id := "t1", userId := "u1", content := "n", createdAt := 4 } "d1"
      { id := "d1", userId := "u2", content := "m", createdAt := 3 } 0 "w" rfl).1.1,
   (ddbWrite_invalidates_author_only storeC6 cacheC6
      { id := "t1", userId := "u1", content := "n", createdAt := 4 } "d1"
      { id := "d1", userId := "u2", content := "m", createdAt := 3 } 0 "w" rfl).1.2 (by decide)⟩

/-- Counterexample to C7 as stated: when the cache invalidation fails (the
use case only logs the error), `FollowUser` still returns success while
alice's pre-existing cache entry remains, so the next timeline read for
alice can still be served from an entry cached before the fetch set
changed. -/
theorem followUser_stale_after_invalidate_failure :
    (userUseCaseFollowUser usersC7 false true cacheC7 "alice" "bob").1 = Except.ok () ∧
    cacheLookup 0 "alice" (userUseCaseFollowUser usersC7 false true cacheC7 "alice" "bob").2 =
      some staleC7 :=
  ⟨rfl, rfl⟩

/-- C7 amended: when the cache invalidation succeeds, a successful
`FollowUser` or `UnfollowUser` leaves no cache entry for the follower — the
invalidation is sequenced before the operation returns — so the next
timeline read for the follower cannot be served from an entry cached before
the fetch set changed.  When the invalidation fails, the operation still
returns success and the stale entry can survive until TTL expiry. -/
theorem followUnfollow_invalidates_follower (users : List User) (updateFails : Bool)
    (cache : CacheState) (followerID followedID : String) (t : Nat) :
    ((userUseCaseFollowUser users updateFails false cache followerID followedID).1 =
        Except.ok () →
      cacheLookup t followerID
        (userUseCaseFollowUser users updateFails false cache followerID followedID).2 = none) ∧
    ((userUseCaseUnfollowUser users updateFails false cache followerID followedID).1 =
        Except.ok () →
      cacheLookup t followerID
        (userUseCaseUnfollowUser users updateFails false cache followerID followedID).2 = none) := by
  constructor
  · unfold userUseCaseFollowUser
    cases findUser users followerID with
    | none => intro hok; exact absurd hok (by simp)
    | some follower =>
      dsimp only
      cases findUser users followedID with
      | none => intro hok; exact absurd hok (by simp)
      | some followed =>
        dsimp only
        cases follower.Follow followedID with
        | error e => intro hok; exact absurd hok (by simp)
        | ok f2 =>
          dsimp only
          cases updateFails with
          | true => intro hok; exact absurd hok (by simp)
          | false => intro hok; simp [cacheLookup_invalidate_self]
  · unfold userUseCaseUnfollowUser
    cases findUser users followerID with
    | none => intro hok; exact absurd hok (by simp)
    | some follower =>
      dsimp only
      cases updateFails with
      | true => intro hok; exact absurd hok (by simp)
      | false => intro hok; simp [cacheLookup_invalidate_self]

/-- Witness for the amended C7: after alice successfully follows bob with a
healthy cache, alice's stale entry is gone. -/
theorem followUnfollow_invalidates_follower_witness :
    cacheLookup 0 "alice"
      (userUseCaseFollowUser usersC7 false false cacheC7 "alice" "bob").2 = none :=
  (followUnfollow_invalidates_follower usersC7 false cacheC7 "alice" "bob" 0).1 rfl
